import Mathlib

set_option autoImplicit false

/-!
A verification development for the y10k package-repository mirroring tool.

The Go sources under study are `repo.go` (the `Repo` descriptor, its
`Validate` method and the `Repo.Sync` mirror-synchronization orchestrator)
and `yumrepo_mirror.go` (the `YumRepoMirror` shell-out variant and its
`Validate` method).  Pure data and control flow are translated directly;
external collaborators (filesystem, network, GPG, the `yum` metadata
library, the download scheduler) are modelled as an explicit environment
of oracle functions, so that `Repo.Sync` becomes a total function from the
environment and its arguments to either a fatal setup error or a
`SyncOutcome` describing the scheduled jobs and the completion-loop trace.
-/

/-- ASCII apostrophe (0x27), used inside formatted error messages. -/
def squote : String := String.singleton (Char.ofNat 39)

/-- `Repo` mirrors the Go struct field for field.  `time.Time` fields are
rendered as unix timestamps (`Int`); the zero value of each field matches
Go's zero value, so `NewRepo` is the default instance. -/
structure Repo where
  ID : String := ""
  Name : String := ""
  Architecture : String := ""
  BaseURL : String := ""
  CachePath : String := ""
  Checksum : String := ""
  DeleteRemoved : Bool := false
  GPGCheck : Bool := false
  GPGKey : String := ""
  Groupfile : String := ""
  IncludeSources : Bool := false
  LocalPath : String := ""
  MirrorURL : String := ""
  NewOnly : Bool := false
  MaxDate : Int := 0
  MinDate : Int := 0
  YumfileLineNo : Int := 0
  YumfilePath : String := ""
deriving DecidableEq

/-- `NewRepo` returns the zero-valued struct. -/
def NewRepo : Repo := {}

/-- Go's `Repo.String()` method: prints the repository ID (used by `%v`
formatting in error messages).  Named `goString` here because `String`
would shadow the string type inside the `Repo` namespace. -/
def Repo.goString (c : Repo) : String := c.ID

/-- `Repo.Validate`, translated from the source.  The Go method has a
pointer receiver but never writes through it, so it is rendered
state-passing: it returns the (possible) error together with the struct
as it stands when the method returns.  `NewErrorf`'s `%s`/`%d` verbs are
rendered as string concatenation. -/
def Repo.Validate (c : Repo) : Option String × Repo :=
  if c.ID = "" then
    (some ("Upstream repository has no ID specified (in " ++ c.YumfilePath ++ ":" ++
      toString c.YumfileLineNo ++ ")"), c)
  else if c.MirrorURL = "" ∧ c.BaseURL = "" then
    (some ("Upstream repository for " ++ squote ++ c.ID ++ squote ++
      " has no mirror list or base URL (in " ++ c.YumfilePath ++ ":" ++
      toString c.YumfileLineNo ++ ")"), c)
  else
    (none, c)

/-- Modelled from the spec: the `YumRepo` struct itself is declared outside
the two source files.  Its fields are reconstructed from §3's repository
descriptor and from the field accesses in `yumrepo_mirror.go`
(`ID`, `Name`, `MirrorListURL`, `BaseURL`, `Enabled`, `GPGCheck`,
`GPGKeyPath`, `Timeout`, `Retries`). -/
structure YumRepo where
  ID : String := ""
  Name : String := ""
  MirrorListURL : String := ""
  BaseURL : String := ""
  Enabled : Bool := false
  GPGCheck : Bool := false
  GPGKeyPath : String := ""
  Timeout : Nat := 0
  Retries : Nat := 0
deriving DecidableEq

/-- `YumRepoMirror` mirrors the Go struct field for field. -/
structure YumRepoMirror where
  YumRepo : YumRepo := {}
  CachePath : String := ""
  EnablePlugins : Bool := false
  IncludeSources : Bool := false
  LocalPath : String := ""
  NewOnly : Bool := false
  DeleteRemoved : Bool := false
  GPGCheck : Bool := false
  Architecture : String := ""
  YumfilePath : String := ""
  YumfileLineNo : Int := 0
deriving DecidableEq

/-- `YumRepoMirror.Validate`, translated from the source.  The pointer
receiver may write the `Name` field (defaulting it to the ID), so the
method is rendered state-passing: error plus the struct after the call. -/
def YumRepoMirror.Validate (c : YumRepoMirror) : Option String × YumRepoMirror :=
  if c.YumRepo.ID = "" then
    (some ("Upstream repository has no ID specified (in " ++ c.YumfilePath ++ ":" ++
      toString c.YumfileLineNo ++ ")"), c)
  else if c.YumRepo.MirrorListURL = "" ∧ c.YumRepo.BaseURL = "" then
    (some ("Upstream repository for " ++ squote ++ c.YumRepo.ID ++ squote ++
      " has no mirror list or base URL (in " ++ c.YumfilePath ++ ":" ++
      toString c.YumfileLineNo ++ ")"), c)
  else if c.YumRepo.Name = "" then
    (none, { c with YumRepo := { c.YumRepo with Name := c.YumRepo.ID } })
  else
    (none, c)

/-- `msg` contains `sub` as a contiguous substring. -/
def mentionsStr (msg sub : String) : Prop := ∃ a b, msg = a ++ sub ++ b

/-- Opaque token types for external collaborators' values: a loaded GPG
keyring, the per-repository metadata cache, the decoded primary database
and an open file handle.  Their internal structure is irrelevant to the
control flow under study. -/
abbrev KeyRing := String

/-- See `KeyRing`. -/
abbrev RepoCache := String

/-- See `KeyRing`. -/
abbrev PrimaryDatabase := String

/-- See `KeyRing`. -/
abbrev FileHandle := String

/-- Result of `yum.ValidateFileChecksum`: nil error, the distinguished
`yum.ErrChecksumMismatch`, or any other non-nil error. -/
inductive ChecksumResult where
  | ok
  | mismatch
  | err (e : String)
deriving DecidableEq

/-- Result of `os.MkdirAll` as discriminated by the source: nil error, an
error satisfying `os.IsExist` (tolerated), or any other error (fatal). -/
inductive MkdirResult where
  | ok
  | errExist (e : String)
  | err (e : String)
deriving DecidableEq

/-- The fatal component of an `os.MkdirAll` result: the source aborts
exactly when the error is non-nil and not an `IsExist` error. -/
def MkdirResult.fatal : MkdirResult → Option String
  | .err e => some e
  | _ => none

/-- `PackageEntry` is the read-only record decoded from the primary
database (`yum.PackageEntry`, an external library type).  Only the
accessors used by `Repo.Sync` are modelled: `String()` (the label),
`LocationHref()`, `Checksum()`, `ChecksumType()` and `PackageSize()`
(declared byte size, a non-negative count). -/
structure PackageEntry where
  Label : String
  LocationHref : String
  Checksum : String
  ChecksumType : String
  PackageSize : Nat
deriving DecidableEq

/-- `DownloadJob` mirrors the job record constructed in `Repo.Sync` and
consumed by the download scheduler; the struct declaration itself lives
outside the two source files, so the field list is reconstructed from the
construction site (`Label`, `URL`, `Size`, `Path`, `Checksum`,
`ChecksumType`) and §3's description of the terminal error annotation
(`Error`, Go zero value nil). -/
structure DownloadJob where
  Label : String
  URL : String
  Size : Nat
  Path : String
  Checksum : String
  ChecksumType : String
  Error : Option String := none
deriving DecidableEq

/-- Observable actions of one `Repo.Sync` run: the `Errorf` reports in the
diff and completion loops, each GPG verification performed, and each
`os.Remove` performed (with its success bit). -/
inductive Event where
  | logChecksumMismatch (label : String)
  | logChecksumErr (label : String)
  | logDownloadErr (label : String)
  | logOpenErr (label : String)
  | gpgChecked (path : String) (keyring : Option KeyRing)
  | logGPGErr (label : String)
  | remove (path : String) (succeeded : Bool)
  | logRemoveErr (label : String)
deriving DecidableEq

/-- The environment of external collaborators consulted by `Repo.Sync`,
one oracle per call site: `OpenKeyRing`, `Repo.CacheLocal`,
`RepoCache.PrimaryDB`, `os.MkdirAll`, `ioutil.ReadDir` (file names only),
`PrimaryDatabase.Packages`, `FilterPackages`, `yum.ValidateFileChecksum`,
`urljoin`, `filepath.Base`, `filepath.Join`, the download scheduler's
per-job error annotation, `os.Open`, `rpm.GPGCheck` (nil keyring rendered
as `none`) and `os.Remove`.  Each is a total function, so a run of the
orchestrator is a pure function of the environment. -/
structure Env where
  OpenKeyRing : String → Except String KeyRing
  CacheLocal : Repo → String → Except String RepoCache
  PrimaryDB : RepoCache → Except String PrimaryDatabase
  MkdirAll : String → MkdirResult
  ReadDir : String → Except String (List String)
  Packages : PrimaryDatabase → Except String (List PackageEntry)
  FilterPackages : Repo → List PackageEntry → List PackageEntry
  ValidateFileChecksum : String → String → String → ChecksumResult
  urljoin : String → String → String
  Base : String → String
  Join : String → String → String
  downloadError : DownloadJob → Option String
  Open : String → Except String FileHandle
  GPGCheck : FileHandle → Option KeyRing → Except String String
  Remove : String → Option String

/-- Modulus of Go's `uint64`, applied where the source converts or
accumulates 64-bit unsigned quantities. -/
def U64 : Nat := 2 ^ 64

/-- The inner search of the diff loop in `Repo.Sync` (lines 144-165):
scan the directory listing for the first file named `package_filename`;
on a name match validate the checksum at `package_path` and stop scanning
(`break`) whatever the validation result.  Returns the `found` flag and
the `Errorf` reports emitted. -/
def searchLocal (env : Env) (files : List String)
    (package_filename package_path checksum checksumType label : String) :
    Bool × List Event :=
  match files with
  | [] => (false, [])
  | f :: rest =>
    if f = package_filename then
      match env.ValidateFileChecksum package_path checksum checksumType with
      | .mismatch => (false, [.logChecksumMismatch label])
      | .err _ => (false, [.logChecksumErr label])
      | .ok => (true, [])
    else searchLocal env rest package_filename package_path checksum checksumType label

/-- The diff loop of `Repo.Sync` (lines 136-173), rendered as structural
recursion over the filtered package list (the Go loop appends to
`missing` left to right; consing and recursing yields the same list, and
the `uint64` running total is accumulated modulo `2 ^ 64` exactly as
`totalsize += uint64(p.PackageSize())` does).  Returns the missing
entries, the running total and the diff-phase reports. -/
def diffStep (env : Env) (packagedir : String) (files : List String) :
    List PackageEntry → List PackageEntry × Nat × List Event
  | [] => ([], 0, [])
  | p :: rest =>
    let package_filename := env.Base p.LocationHref
    let package_path := env.Join packagedir (env.Base p.LocationHref)
    let s := searchLocal env files package_filename package_path p.Checksum p.ChecksumType p.Label
    let r := diffStep env packagedir files rest
    if s.1 then (r.1, r.2.1, s.2 ++ r.2.2)
    else (p :: r.1, (p.PackageSize % U64 + r.2.1) % U64, s.2 ++ r.2.2)

/-- Construction of one `DownloadJob` (lines 178-189): destination path is
the package directory joined with the basename of the entry's location,
URL is `urljoin` of the repository base URL and the relative location,
and size/checksum/algorithm are copied from the entry. -/
def mkJob (env : Env) (c : Repo) (packagedir : String) (p : PackageEntry) : DownloadJob :=
  { Label := p.Label
    URL := env.urljoin c.BaseURL p.LocationHref
    Size := p.PackageSize % U64
    Path := env.Join packagedir (env.Base p.LocationHref)
    Checksum := p.Checksum
    ChecksumType := p.ChecksumType
    Error := none }

/-- The download scheduler's terminal annotation of a job: the job as it
comes back on the completion channel, 'Error' field set to the transport
outcome. -/
def annotate (env : Env) (j : DownloadJob) : DownloadJob :=
  { j with Error := env.downloadError j }

/-- The body of the completion loop of `Repo.Sync` (lines 197-220) for a
single completed job: a failed download is logged; otherwise the file is
opened (failure logged, nothing else done), GPG-checked against the
keyring, and on a GPG failure the failure is logged and the file removed,
a removal error being logged in turn. -/
def processJob (env : Env) (keyring : Option KeyRing) (job : DownloadJob) : List Event :=
  match job.Error with
  | some _ => [.logDownloadErr job.Label]
  | none =>
    match env.Open job.Path with
    | .error _ => [.logOpenErr job.Label]
    | .ok f =>
      match env.GPGCheck f keyring with
      | .ok _ => [.gpgChecked job.Path keyring]
      | .error _ =>
        [.gpgChecked job.Path keyring, .logGPGErr job.Label] ++
          match env.Remove job.Path with
          | none => [.remove job.Path true]
          | some _ => [.remove job.Path false, .logRemoveErr job.Label]

/-- Everything observable about a `Repo.Sync` run that got past setup: the
keyring in force, the directory listing snapshot, the filtered package
list, the diff results (missing entries, running total, diff reports),
the scheduled jobs and the completion-loop trace. -/
structure SyncOutcome where
  keyring : Option KeyRing
  files : List String
  packages : List PackageEntry
  missing : List PackageEntry
  totalsize : Nat
  diffEvents : List Event
  jobs : List DownloadJob
  events : List Event
deriving DecidableEq

/-- The part of `Repo.Sync` after all setup steps have succeeded: filter,
diff, job construction, download and the completion loop.  The completion
channel delivers each job exactly once; delivery order is abstracted as
submission order (no claim under study depends on the order). -/
def syncBody (env : Env) (c : Repo) (packagedir : String)
    (keyring : Option KeyRing) (files : List String)
    (packages0 : List PackageEntry) : SyncOutcome :=
  let packages := env.FilterPackages c packages0
  let d := diffStep env packagedir files packages
  let jobs := d.1.map (mkJob env c packagedir)
  let complete := jobs.map (annotate env)
  { keyring := keyring
    files := files
    packages := packages
    missing := d.1
    totalsize := d.2.1
    diffEvents := d.2.2
    jobs := jobs
    events := complete.flatMap (processJob env keyring) }

/-- The keyring-loading step of `Repo.Sync` (lines 93-100): when GPG
checking is enabled the keyring is loaded from `c.GPGKey` (failure is
fatal); otherwise the keyring stays nil. -/
def loadKeyring (env : Env) (c : Repo) : Except String (Option KeyRing) :=
  if c.GPGCheck then
    match env.OpenKeyRing c.GPGKey with
    | .error e => .error e
    | .ok k => .ok (some k)
  else .ok none

/-- `Repo.Sync`, translated from the source.  Setup steps run in source
order — keyring, metadata cache, primary database, package directory
creation, directory listing, package-list decode — each aborting with the
source's error message on failure; then the run finishes with
`syncBody` and returns nil (here: `.ok` carrying the observable
outcome). -/
def Repo.Sync (env : Env) (c : Repo) (cachedir packagedir : String) :
    Except String SyncOutcome :=
  match loadKeyring env c with
  | .error e => .error e
  | .ok keyring =>
    match env.CacheLocal c cachedir with
    | .error e => .error ("Failed to cache metadata for repo " ++ c.goString ++ ": " ++ e)
    | .ok repocache =>
      match env.PrimaryDB repocache with
      | .error e => .error e
      | .ok primarydb =>
        match MkdirResult.fatal (env.MkdirAll packagedir) with
        | some e => .error ("Error creating local package path " ++ packagedir ++ ": " ++ e)
        | none =>
          match env.ReadDir packagedir with
          | .error _ => .error "Error reading packages"
          | .ok files =>
            match env.Packages primarydb with
            | .error e => .error ("Error reading packages from primary_db: " ++ e)
            | .ok packages0 => .ok (syncBody env c packagedir keyring files packages0)

/-- All six setup steps of `Repo.Sync` succeed for this environment. -/
def setupOK (env : Env) (c : Repo) (cachedir packagedir : String) : Prop :=
  ∃ kr rc db fs ps,
    loadKeyring env c = .ok kr ∧
    env.CacheLocal c cachedir = .ok rc ∧
    env.PrimaryDB rc = .ok db ∧
    MkdirResult.fatal (env.MkdirAll packagedir) = none ∧
    env.ReadDir packagedir = .ok fs ∧
    env.Packages db = .ok ps

/-- A file named like the entry's location basename is in the directory
listing and the checksum at the entry's destination path validates
against the entry's declared checksum and algorithm. -/
def hasValidLocal (env : Env) (packagedir : String) (files : List String)
    (p : PackageEntry) : Prop :=
  env.Base p.LocationHref ∈ files ∧
  env.ValidateFileChecksum (env.Join packagedir (env.Base p.LocationHref))
    p.Checksum p.ChecksumType = .ok

instance (env : Env) (packagedir : String) (files : List String) (p : PackageEntry) :
    Decidable (hasValidLocal env packagedir files p) :=
  inferInstanceAs (Decidable (_ ∧ _))

/-- Events of a sync result, empty for a fatal setup error. -/
def eventsOf : Except String SyncOutcome → List Event
  | .ok o => o.events
  | .error _ => []

/-- Concrete package entry: a valid local copy exists in the fixtures. -/
def pA : PackageEntry :=
  { Label := "a-1.0", LocationHref := "a-1.0.rpm", Checksum := "aaa",
    ChecksumType := "sha256", PackageSize := 100 }

/-- Concrete package entry: a local copy exists but its checksum
mismatches in the fixtures. -/
def pB : PackageEntry :=
  { Label := "b-2.0", LocationHref := "b-2.0.rpm", Checksum := "bbb",
    ChecksumType := "sha256", PackageSize := 200 }

/-- Concrete package entry: no local copy exists in the fixtures. -/
def pC : PackageEntry :=
  { Label := "c-3.0", LocationHref := "c-3.0.rpm", Checksum := "ccc",
    ChecksumType := "sha256", PackageSize := 300 }

/-- Concrete test environment: three upstream packages, a local listing
holding a valid `a-1.0.rpm` and a corrupt `b-2.0.rpm`, all downloads
succeeding, every GPG verification failing, removals succeeding. -/
def envW : Env :=
  { OpenKeyRing := fun _ => .ok "ring"
    CacheLocal := fun _ _ => .ok "cache"
    PrimaryDB := fun _ => .ok "db"
    MkdirAll := fun _ => .ok
    ReadDir := fun _ => .ok ["a-1.0.rpm", "b-2.0.rpm"]
    Packages := fun _ => .ok [pA, pB, pC]
    FilterPackages := fun _ ps => ps
    ValidateFileChecksum := fun _ checksum _ => if checksum = "aaa" then .ok else .mismatch
    urljoin := fun a b => a ++ b
    Base := fun s => s
    Join := fun a b => a ++ "/" ++ b
    downloadError := fun _ => none
    Open := fun _ => .ok "fh"
    GPGCheck := fun _ _ => .error "bad signature"
    Remove := fun _ => none }

/-- Concrete repository descriptor with GPG checking enabled. -/
def cW : Repo :=
  { ID := "r1", Name := "r1", BaseURL := "http://u/", GPGCheck := true,
    GPGKey := "k", YumfilePath := "Yumfile", YumfileLineNo := 3 }

/-- The outcome of syncing `cW` under `envW`. -/
def outW : SyncOutcome :=
  syncBody envW cW "pkgs" (some "ring") ["a-1.0.rpm", "b-2.0.rpm"] [pA, pB, pC]

/-- `cW` with GPG checking disabled. -/
def cNoGPG : Repo := { cW with GPGCheck := false }

/-- The outcome of syncing `cNoGPG` under `envW`: the keyring stays nil. -/
def outNoGPG : SyncOutcome :=
  syncBody envW cNoGPG "pkgs" none ["a-1.0.rpm", "b-2.0.rpm"] [pA, pB, pC]

/-- `cW` with an empty base URL and a mirror-list URL instead. -/
def cMirror : Repo := { cW with BaseURL := "", MirrorURL := "http://m/" }

/-- The outcome of syncing `cMirror` under `envW`. -/
def outMirror : SyncOutcome :=
  syncBody envW cMirror "pkgs" (some "ring") ["a-1.0.rpm", "b-2.0.rpm"] [pA, pB, pC]

/-- `envW` with an unreachable metadata cache. -/
def envBadCache : Env := { envW with CacheLocal := fun _ _ => .error "unreachable" }

/-- `envW` where downloaded files cannot be opened for the GPG check. -/
def envOpenFail : Env := { envW with Open := fun _ => .error "permission denied" }

/-- The outcome of syncing `cW` under `envOpenFail`. -/
def outOpenFail : SyncOutcome :=
  syncBody envOpenFail cW "pkgs" (some "ring") ["a-1.0.rpm", "b-2.0.rpm"] [pA, pB, pC]

/-- The download job the fixtures build for the corrupt `b-2.0.rpm`. -/
def jobB : DownloadJob := mkJob envW cW "pkgs" pB

/-- Concrete descriptor missing its ID (validation must fail). -/
def cC6 : Repo := { ID := "", YumfilePath := "Yumfile", YumfileLineNo := 3 }

/-- Concrete mirror descriptor that passes validation. -/
def mC6 : YumRepoMirror :=
  { YumRepo := { ID := "r9", BaseURL := "http://u" }, YumfilePath := "Yumfile",
    YumfileLineNo := 4 }

/-- Concrete descriptor with an empty display name that passes
validation. -/
def rC7 : Repo := { ID := "r7", BaseURL := "http://u", Name := "" }

/-- Concrete mirror descriptor with an empty display name that passes
validation. -/
def mC7 : YumRepoMirror := { YumRepo := { ID := "r8", BaseURL := "http://u", Name := "" } }

/-- The inner search finds a valid local file exactly when the listing
contains the wanted filename and the checksum at the destination path
validates (the `break`-on-first-match loop coincides with this predicate
because validation depends only on the destination path). -/
lemma searchLocal_found (env : Env) (files : List String)
    (package_filename package_path checksum checksumType label : String) :
    (searchLocal env files package_filename package_path checksum checksumType label).1 = true ↔
      package_filename ∈ files ∧
        env.ValidateFileChecksum package_path checksum checksumType = .ok := by
  induction files with
  | nil => simp [searchLocal]
  | cons f rest ih =>
    by_cases hf : f = package_filename
    · subst hf
      cases hv : env.ValidateFileChecksum package_path checksum checksumType <;>
        simp [searchLocal, hv]
    · have hf2 : package_filename ≠ f := fun h => hf h.symm
      simp [searchLocal, hf, hf2, ih]

/-- The inner search only ever reports checksum problems. -/
lemma searchLocal_events (env : Env) (files : List String)
    (package_filename package_path checksum checksumType label : String) :
    ∀ e ∈ (searchLocal env files package_filename package_path checksum checksumType label).2,
      e = Event.logChecksumMismatch label ∨ e = Event.logChecksumErr label := by
  induction files with
  | nil => simp [searchLocal]
  | cons f rest ih =>
    intro e he
    by_cases hf : f = package_filename
    · subst hf
      cases hv : env.ValidateFileChecksum package_path checksum checksumType <;>
        simp [searchLocal, hv] at he <;> simp [he]
    · rw [searchLocal, if_neg hf] at he
      exact ih e he

/-- An entry is in the missing list exactly when it is in the filtered
input list and has no valid local file. -/
lemma diffStep_missing_mem (env : Env) (packagedir : String) (files : List String)
    (pkgs : List PackageEntry) (p : PackageEntry) :
    p ∈ (diffStep env packagedir files pkgs).1 ↔
      p ∈ pkgs ∧ ¬ hasValidLocal env packagedir files p := by
  induction pkgs with
  | nil => simp [diffStep]
  | cons q rest ih =>
    have hs := searchLocal_found env files (env.Base q.LocationHref)
      (env.Join packagedir (env.Base q.LocationHref)) q.Checksum q.ChecksumType q.Label
    by_cases hv : hasValidLocal env packagedir files q
    · have hst : (searchLocal env files (env.Base q.LocationHref)
          (env.Join packagedir (env.Base q.LocationHref)) q.Checksum q.ChecksumType q.Label).1
          = true := hs.mpr hv
      simp only [diffStep, hst, if_true]
      rw [ih]
      constructor
      · rintro ⟨h1, h2⟩
        exact ⟨List.mem_cons_of_mem _ h1, h2⟩
      · rintro ⟨h1, h2⟩
        rcases List.mem_cons.mp h1 with h1 | h1
        · subst h1; exact absurd hv h2
        · exact ⟨h1, h2⟩
    · have hst : (searchLocal env files (env.Base q.LocationHref)
          (env.Join packagedir (env.Base q.LocationHref)) q.Checksum q.ChecksumType q.Label).1
          = false := by
        cases h0 : (searchLocal env files (env.Base q.LocationHref)
            (env.Join packagedir (env.Base q.LocationHref)) q.Checksum q.ChecksumType q.Label).1
        · rfl
        · exact absurd (hs.mp h0) hv
      simp only [diffStep, hst, Bool.false_eq_true, if_false, List.mem_cons]
      rw [ih]
      constructor
      · rintro (h1 | ⟨h1, h2⟩)
        · subst h1; exact ⟨Or.inl rfl, hv⟩
        · exact ⟨Or.inr h1, h2⟩
      · rintro ⟨h1 | h1, h2⟩
        · exact Or.inl h1
        · exact Or.inr ⟨h1, h2⟩

/-- The diff step performs no file deletion: its report stream never
contains a removal action. -/
lemma diffStep_no_remove (env : Env) (packagedir : String) (files : List String)
    (pkgs : List PackageEntry) (path : String) (b : Bool) :
    Event.remove path b ∉ (diffStep env packagedir files pkgs).2.2 := by
  induction pkgs with
  | nil => simp [diffStep]
  | cons q rest ih =>
    have hse := searchLocal_events env files (env.Base q.LocationHref)
      (env.Join packagedir (env.Base q.LocationHref)) q.Checksum q.ChecksumType q.Label
    intro hmem
    have : Event.remove path b ∈
        (searchLocal env files (env.Base q.LocationHref)
          (env.Join packagedir (env.Base q.LocationHref)) q.Checksum q.ChecksumType q.Label).2 ++
        (diffStep env packagedir files rest).2.2 := by
      simp only [diffStep] at hmem
      cases h0 : (searchLocal env files (env.Base q.LocationHref)
          (env.Join packagedir (env.Base q.LocationHref)) q.Checksum q.ChecksumType q.Label).1 <;>
        simp only [h0, Bool.false_eq_true, if_false, if_true] at hmem <;> exact hmem
    rcases List.mem_append.mp this with h | h
    · rcases hse _ h with h1 | h1 <;> exact Event.noConfusion h1
    · exact ih h

/-- When the declared sizes of the missing entries fit in a `uint64`, the
running total is exactly their sum. -/
lemma diffStep_totalsize (env : Env) (packagedir : String) (files : List String)
    (pkgs : List PackageEntry)
    (h : ((diffStep env packagedir files pkgs).1.map PackageEntry.PackageSize).sum < U64) :
    (diffStep env packagedir files pkgs).2.1 =
      ((diffStep env packagedir files pkgs).1.map PackageEntry.PackageSize).sum := by
  induction pkgs with
  | nil => simp [diffStep]
  | cons q rest ih =>
    cases h0 : (searchLocal env files (env.Base q.LocationHref)
        (env.Join packagedir (env.Base q.LocationHref)) q.Checksum q.ChecksumType q.Label).1
    · simp only [diffStep, h0, Bool.false_eq_true, if_false] at h ⊢
      simp only [List.map_cons, List.sum_cons] at h ⊢
      have hq : q.PackageSize < U64 := lt_of_le_of_lt (Nat.le_add_right _ _) h
      have hrest : ((diffStep env packagedir files rest).1.map PackageEntry.PackageSize).sum
          < U64 := lt_of_le_of_lt (Nat.le_add_left _ _) h
      rw [ih hrest, Nat.mod_eq_of_lt hq, Nat.mod_eq_of_lt h]
    · simp only [diffStep, h0, if_true] at h ⊢
      exact ih h

/-- When every setup step succeeds, `Repo.Sync` runs to completion and
returns the `syncBody` outcome. -/
lemma Sync_eq_ok_syncBody {env : Env} {c : Repo} {cachedir packagedir : String}
    {kr : Option KeyRing} {rc : RepoCache} {db : PrimaryDatabase}
    {fs : List String} {ps : List PackageEntry}
    (h1 : loadKeyring env c = .ok kr)
    (h2 : env.CacheLocal c cachedir = .ok rc)
    (h3 : env.PrimaryDB rc = .ok db)
    (h4 : MkdirResult.fatal (env.MkdirAll packagedir) = none)
    (h5 : env.ReadDir packagedir = .ok fs)
    (h6 : env.Packages db = .ok ps) :
    Repo.Sync env c cachedir packagedir = .ok (syncBody env c packagedir kr fs ps) := by
  simp only [Repo.Sync, h1, h2, h3, h4, h5, h6]

/-- A successful `Repo.Sync` run decomposes into six successful setup
steps followed by `syncBody`. -/
lemma Sync_ok_elim {env : Env} {c : Repo} {cachedir packagedir : String} {out : SyncOutcome}
    (h : Repo.Sync env c cachedir packagedir = .ok out) :
    ∃ kr rc db fs ps,
      loadKeyring env c = .ok kr ∧
      env.CacheLocal c cachedir = .ok rc ∧
      env.PrimaryDB rc = .ok db ∧
      MkdirResult.fatal (env.MkdirAll packagedir) = none ∧
      env.ReadDir packagedir = .ok fs ∧
      env.Packages db = .ok ps ∧
      out = syncBody env c packagedir kr fs ps := by
  unfold Repo.Sync at h
  cases hk : loadKeyring env c with
  | error e => rw [hk] at h; simp at h
  | ok kr =>
    rw [hk] at h; dsimp only at h
    cases hc : env.CacheLocal c cachedir with
    | error e => rw [hc] at h; simp at h
    | ok rc =>
      rw [hc] at h; dsimp only at h
      cases hd : env.PrimaryDB rc with
      | error e => rw [hd] at h; simp at h
      | ok db =>
        rw [hd] at h; dsimp only at h
        cases hm : MkdirResult.fatal (env.MkdirAll packagedir) with
        | some e => rw [hm] at h; simp at h
        | none =>
          rw [hm] at h; dsimp only at h
          cases hr : env.ReadDir packagedir with
          | error e => rw [hr] at h; simp at h
          | ok fs =>
            rw [hr] at h; dsimp only at h
            cases hp : env.Packages db with
            | error e => rw [hp] at h; simp at h
            | ok ps =>
              rw [hp] at h
              simp only [Except.ok.injEq] at h
              exact ⟨kr, rc, db, fs, ps, rfl, rfl, hd, rfl, rfl, hp, h.symm⟩

/-- `Repo.Sync` returns successfully exactly when all six setup steps
succeed — per-job download/verification outcomes play no part. -/
lemma Sync_isOk_iff (env : Env) (c : Repo) (cachedir packagedir : String) :
    (∃ out, Repo.Sync env c cachedir packagedir = .ok out) ↔
      setupOK env c cachedir packagedir := by
  constructor
  · rintro ⟨out, h⟩
    obtain ⟨kr, rc, db, fs, ps, h1, h2, h3, h4, h5, h6, _⟩ := Sync_ok_elim h
    exact ⟨kr, rc, db, fs, ps, h1, h2, h3, h4, h5, h6⟩
  · rintro ⟨kr, rc, db, fs, ps, h1, h2, h3, h4, h5, h6⟩
    exact ⟨_, Sync_eq_ok_syncBody h1 h2 h3 h4 h5 h6⟩

/-- `Repo.Sync` returns a non-nil error exactly when some setup step
fails. -/
lemma Sync_error_iff (env : Env) (c : Repo) (cachedir packagedir : String) :
    (∃ e, Repo.Sync env c cachedir packagedir = .error e) ↔
      ¬ setupOK env c cachedir packagedir := by
  rw [← Sync_isOk_iff]
  cases h : Repo.Sync env c cachedir packagedir with
  | error e => simp [h]
  | ok out => simp [h]

/-- The completion-loop trace of a finished run: every scheduled job comes
back annotated on the channel and is processed once. -/
lemma syncBody_events_eq (env : Env) (c : Repo) (packagedir : String)
    (kr : Option KeyRing) (fs : List String) (ps : List PackageEntry) :
    (syncBody env c packagedir kr fs ps).events =
      ((syncBody env c packagedir kr fs ps).jobs.map (annotate env)).flatMap
        (processJob env kr) := rfl

/-- Field view of `syncBody`: the keyring is the one loaded at setup. -/
lemma syncBody_keyring (env : Env) (c : Repo) (packagedir : String)
    (kr : Option KeyRing) (fs : List String) (ps : List PackageEntry) :
    (syncBody env c packagedir kr fs ps).keyring = kr := rfl

/-- Field view of `syncBody`: jobs are the missing entries mapped through
job construction. -/
lemma syncBody_jobs (env : Env) (c : Repo) (packagedir : String)
    (kr : Option KeyRing) (fs : List String) (ps : List PackageEntry) :
    (syncBody env c packagedir kr fs ps).jobs =
      (syncBody env c packagedir kr fs ps).missing.map (mkJob env c packagedir) := rfl

/-- Field view of `syncBody`: the missing list is the diff of the filtered
packages against the directory listing. -/
lemma syncBody_missing (env : Env) (c : Repo) (packagedir : String)
    (kr : Option KeyRing) (fs : List String) (ps : List PackageEntry) :
    (syncBody env c packagedir kr fs ps).missing =
      (diffStep env packagedir fs (env.FilterPackages c ps)).1 := rfl

/-- An event reported while processing a scheduled job lands in the trace
of the run. -/
lemma mem_events_of_mem_jobs {env : Env} {c : Repo} {packagedir : String}
    {kr : Option KeyRing} {fs : List String} {ps : List PackageEntry}
    {j : DownloadJob} (hj : j ∈ (syncBody env c packagedir kr fs ps).jobs)
    {e : Event} (he : e ∈ processJob env kr (annotate env j)) :
    e ∈ (syncBody env c packagedir kr fs ps).events := by
  rw [syncBody_events_eq]
  exact List.mem_flatMap.mpr ⟨annotate env j, List.mem_map_of_mem _ hj, he⟩

/-- Completion-loop case: download succeeded, file opened, GPG failed —
the failure is logged and the removal attempted, possible removal error
logged in turn. -/
lemma processJob_annotate_gpgFail {env : Env} {kr : Option KeyRing} {j : DownloadJob}
    {f : FileHandle} {e : String}
    (hd : env.downloadError j = none) (hf : env.Open j.Path = .ok f)
    (hg : env.GPGCheck f kr = .error e) :
    processJob env kr (annotate env j) =
      [.gpgChecked j.Path kr, .logGPGErr j.Label] ++
        match env.Remove j.Path with
        | none => [.remove j.Path true]
        | some _ => [.remove j.Path false, .logRemoveErr j.Label] := by
  simp [processJob, annotate, hd, hf, hg]

/-- Completion-loop case: download succeeded but the file could not be
opened — the open error is logged and nothing else happens. -/
lemma processJob_annotate_openFail {env : Env} {kr : Option KeyRing} {j : DownloadJob}
    {e : String}
    (hd : env.downloadError j = none) (hf : env.Open j.Path = .error e) :
    processJob env kr (annotate env j) = [.logOpenErr j.Label] := by
  simp [processJob, annotate, hd, hf]

/-- Completion-loop case: download succeeded, file opened, GPG passed. -/
lemma processJob_annotate_gpgOk {env : Env} {kr : Option KeyRing} {j : DownloadJob}
    {f : FileHandle} {s : String}
    (hd : env.downloadError j = none) (hf : env.Open j.Path = .ok f)
    (hg : env.GPGCheck f kr = .ok s) :
    processJob env kr (annotate env j) = [.gpgChecked j.Path kr] := by
  simp [processJob, annotate, hd, hf, hg]

/-- Whatever the GPG outcome, a successfully downloaded and opened file
is GPG-checked. -/
lemma gpgChecked_mem_processJob {env : Env} {kr : Option KeyRing} {j : DownloadJob}
    {f : FileHandle}
    (hd : env.downloadError j = none) (hf : env.Open j.Path = .ok f) :
    Event.gpgChecked j.Path kr ∈ processJob env kr (annotate env j) := by
  cases hg : env.GPGCheck f kr with
  | ok s => rw [processJob_annotate_gpgOk hd hf hg]; simp
  | error e => rw [processJob_annotate_gpgFail hd hf hg]; simp

/-- C1: diff correctness of `Repo.Sync`.  For every filtered package
entry, a download job is created (the entry is in the missing list, and
the job list is exactly the missing list mapped through job construction)
if and only if the package-directory listing contains no file whose name
equals the basename of the entry's location and whose checksum validates
against the entry's declared checksum and algorithm; the diff step never
deletes a file (its report stream holds no removal); and when every
filtered entry has a valid local file, zero jobs are scheduled. -/
theorem C1_diff_correctness (env : Env) (c : Repo) (cachedir packagedir : String)
    (out : SyncOutcome) (h : Repo.Sync env c cachedir packagedir = .ok out) :
    (∀ p, p ∈ out.missing ↔ p ∈ out.packages ∧ ¬ hasValidLocal env packagedir out.files p)
    ∧ out.jobs = out.missing.map (mkJob env c packagedir)
    ∧ (∀ path b, Event.remove path b ∉ out.diffEvents)
    ∧ ((∀ p ∈ out.packages, hasValidLocal env packagedir out.files p) → out.jobs = []) := by
  obtain ⟨kr, rc, db, fs, ps, h1, h2, h3, h4, h5, h6, ho⟩ := Sync_ok_elim h
  subst ho
  refine ⟨?_, rfl, ?_, ?_⟩
  · intro p
    exact diffStep_missing_mem env packagedir fs (env.FilterPackages c ps) p
  · intro path b
    exact diffStep_no_remove env packagedir fs (env.FilterPackages c ps) path b
  · intro hall
    have hnil : (diffStep env packagedir fs (env.FilterPackages c ps)).1 = [] := by
      rw [List.eq_nil_iff_forall_not_mem]
      intro p hp
      have hm := (diffStep_missing_mem env packagedir fs (env.FilterPackages c ps) p).mp hp
      exact hm.2 (hall p hm.1)
    show ((diffStep env packagedir fs (env.FilterPackages c ps)).1.map
      (mkJob env c packagedir)) = []
    rw [hnil]
    rfl

/-- Witness for C1 on the fixtures: the corrupt `b-2.0` and the absent
`c-3.0` are scheduled, the valid `a-1.0` is not. -/
theorem C1_diff_correctness_witness :
    pB ∈ outW.missing ∧ pC ∈ outW.missing ∧ pA ∉ outW.missing := by
  have h := C1_diff_correctness envW cW "cache" "pkgs" outW rfl
  refine ⟨(h.1 pB).mpr ⟨by decide, by decide⟩,
    (h.1 pC).mpr ⟨by decide, by decide⟩, fun hm => ?_⟩
  exact ((h.1 pA).mp hm).2 (by decide)

/-- C2: setup-fatal versus per-job non-fatal asymmetry.  `Repo.Sync`
returns a non-nil error exactly when one of the six setup steps (keyring
with GPG enabled, metadata caching, primary-database loading, directory
creation, directory listing, package-list decoding) fails — so no jobs
are scheduled in those cases; when setup succeeds it returns nil whatever
the per-job oracles say, and the completion loop drains one trace segment
per scheduled job. -/
theorem C2_setup_fatal_vs_job_nonfatal (env : Env) (c : Repo) (cachedir packagedir : String) :
    ((∃ e, Repo.Sync env c cachedir packagedir = .error e) ↔
      ¬ setupOK env c cachedir packagedir)
    ∧ (setupOK env c cachedir packagedir →
      ∃ out, Repo.Sync env c cachedir packagedir = .ok out)
    ∧ (∀ out, Repo.Sync env c cachedir packagedir = .ok out →
      out.events = (out.jobs.map (annotate env)).flatMap (processJob env out.keyring)) := by
  refine ⟨Sync_error_iff env c cachedir packagedir,
    (Sync_isOk_iff env c cachedir packagedir).mpr, ?_⟩
  intro out h
  obtain ⟨kr, rc, db, fs, ps, h1, h2, h3, h4, h5, h6, ho⟩ := Sync_ok_elim h
  subst ho
  rfl

/-- Witness for C2: an unreachable metadata cache makes `Repo.Sync`
return an error. -/
theorem C2_setup_fatal_vs_job_nonfatal_witness :
    ∃ e, Repo.Sync envBadCache cW "cache" "pkgs" = .error e := by
  refine ((C2_setup_fatal_vs_job_nonfatal envBadCache cW "cache" "pkgs").1).mpr ?_
  rintro ⟨kr, rc, db, fs, ps, _, h2, _⟩
  exact Except.noConfusion h2

/-- C3: signature fail-closed.  For every successfully downloaded file
whose GPG verification against the run's keyring fails, the completion
loop logs the failure and performs the removal of that file (the removal
action is in the trace); a removal error is reported in turn without
changing the job's failure classification (the GPG failure stays
logged). -/
theorem C3_signature_fail_closed (env : Env) (c : Repo) (cachedir packagedir : String)
    (out : SyncOutcome) (h : Repo.Sync env c cachedir packagedir = .ok out)
    (j : DownloadJob) (hj : j ∈ out.jobs) (hd : env.downloadError j = none)
    (f : FileHandle) (hf : env.Open j.Path = .ok f)
    (e : String) (hg : env.GPGCheck f out.keyring = .error e) :
    (∃ b, Event.remove j.Path b ∈ out.events)
    ∧ Event.logGPGErr j.Label ∈ out.events
    ∧ (env.Remove j.Path = none → Event.remove j.Path true ∈ out.events)
    ∧ (∀ e2, env.Remove j.Path = some e2 →
        Event.remove j.Path false ∈ out.events ∧
        Event.logRemoveErr j.Label ∈ out.events) := by
  obtain ⟨kr, rc, db, fs, ps, h1, h2, h3, h4, h5, h6, ho⟩ := Sync_ok_elim h
  subst ho
  rw [syncBody_keyring] at hg
  have hpe := processJob_annotate_gpgFail hd hf hg
  cases hrem : env.Remove j.Path with
  | none =>
    rw [hrem] at hpe
    refine ⟨⟨true, ?_⟩, ?_, fun _ => ?_, fun e2 he2 => ?_⟩
    · exact mem_events_of_mem_jobs hj (by rw [hpe]; simp)
    · exact mem_events_of_mem_jobs hj (by rw [hpe]; simp)
    · exact mem_events_of_mem_jobs hj (by rw [hpe]; simp)
    · exact Option.noConfusion he2
  | some e2 =>
    rw [hrem] at hpe
    refine ⟨⟨false, ?_⟩, ?_, fun hn => ?_, fun e3 he3 => ⟨?_, ?_⟩⟩
    · exact mem_events_of_mem_jobs hj (by rw [hpe]; simp)
    · exact mem_events_of_mem_jobs hj (by rw [hpe]; simp)
    · exact Option.noConfusion hn
    · exact mem_events_of_mem_jobs hj (by rw [hpe]; simp)
    · exact mem_events_of_mem_jobs hj (by rw [hpe]; simp)

/-- Witness for C3 on the fixtures: the re-downloaded `b-2.0` fails its
GPG check, so its removal is in the trace alongside the logged GPG
failure. -/
theorem C3_signature_fail_closed_witness :
    (∃ b, Event.remove jobB.Path b ∈ outW.events) ∧
      Event.logGPGErr jobB.Label ∈ outW.events := by
  have h := C3_signature_fail_closed envW cW "cache" "pkgs" outW rfl jobB
    (by decide) rfl "fh" rfl "bad signature" rfl
  exact ⟨h.1, h.2.1⟩

/-- C4, as stated, is false on the code: with GPG checking disabled the
completion loop still runs `rpm.GPGCheck` (against the nil keyring) on
every successfully downloaded, openable file.  Concretely: syncing
`cNoGPG` (GPG check off) under `envW` GPG-checks the re-downloaded
`b-2.0.rpm`. -/
theorem C4_gpg_check_flag_cex :
    cNoGPG.GPGCheck = false ∧
      Event.gpgChecked ("pkgs" ++ "/" ++ "b-2.0.rpm") none ∈
        eventsOf (Repo.Sync envW cNoGPG "cache" "pkgs") := by
  decide

/-- C4 amended: every successfully downloaded package that can be opened
is GPG-checked against the run's keyring; when GPG checking is enabled
that keyring is the one loaded from the repository's key at setup, and
when it is disabled the keyring is nil (the check is still performed). -/
theorem C4_gpg_check_flag_amended (env : Env) (c : Repo) (cachedir packagedir : String)
    (out : SyncOutcome) (h : Repo.Sync env c cachedir packagedir = .ok out)
    (j : DownloadJob) (hj : j ∈ out.jobs) (hd : env.downloadError j = none)
    (f : FileHandle) (hf : env.Open j.Path = .ok f) :
    Event.gpgChecked j.Path out.keyring ∈ out.events
    ∧ (c.GPGCheck = true → ∃ k, env.OpenKeyRing c.GPGKey = .ok k ∧ out.keyring = some k)
    ∧ (c.GPGCheck = false → out.keyring = none) := by
  obtain ⟨kr, rc, db, fs, ps, h1, h2, h3, h4, h5, h6, ho⟩ := Sync_ok_elim h
  subst ho
  rw [syncBody_keyring]
  refine ⟨mem_events_of_mem_jobs hj (gpgChecked_mem_processJob hd hf), ?_, ?_⟩
  · intro hgpg
    unfold loadKeyring at h1
    rw [hgpg] at h1
    simp only [if_true] at h1
    cases hk : env.OpenKeyRing c.GPGKey with
    | error e => rw [hk] at h1; simp at h1
    | ok k =>
      rw [hk] at h1
      simp only [Except.ok.injEq] at h1
      exact ⟨k, rfl, h1.symm⟩
  · intro hgpg
    unfold loadKeyring at h1
    rw [hgpg] at h1
    simp only [Bool.false_eq_true, if_false, Except.ok.injEq] at h1
    exact h1.symm

/-- Witness for the amended C4 on the fixtures: `b-2.0.rpm` is checked
against the keyring loaded for `cW`. -/
theorem C4_gpg_check_flag_amended_witness :
    Event.gpgChecked jobB.Path outW.keyring ∈ outW.events :=
  (C4_gpg_check_flag_amended envW cW "cache" "pkgs" outW rfl jobB
    (by decide) rfl "fh" rfl).1

/-- C5: job construction.  The job list is the missing list mapped
through job construction; each missing entry's job carries the package
directory joined with the basename of the entry's location, the base URL
joined with the relative location, and the entry's declared size,
checksum and algorithm (sizes are accumulated as `uint64`, so declared
sizes are required to fit, which the witness instantiates); the running
total equals the sum of the declared sizes of the missing entries. -/
theorem C5_job_construction (env : Env) (c : Repo) (cachedir packagedir : String)
    (out : SyncOutcome) (h : Repo.Sync env c cachedir packagedir = .ok out)
    (hsz : (out.missing.map PackageEntry.PackageSize).sum < U64) :
    out.jobs = out.missing.map (mkJob env c packagedir)
    ∧ (∀ p ∈ out.missing,
        mkJob env c packagedir p =
          { Label := p.Label
            URL := env.urljoin c.BaseURL p.LocationHref
            Size := p.PackageSize
            Path := env.Join packagedir (env.Base p.LocationHref)
            Checksum := p.Checksum
            ChecksumType := p.ChecksumType
            Error := none })
    ∧ out.totalsize = (out.missing.map PackageEntry.PackageSize).sum := by
  obtain ⟨kr, rc, db, fs, ps, h1, h2, h3, h4, h5, h6, ho⟩ := Sync_ok_elim h
  subst ho
  refine ⟨rfl, ?_, ?_⟩
  · intro p hp
    have hple := List.single_le_sum
      (fun x hx => Nat.zero_le x)
      p.PackageSize
      (List.mem_map_of_mem PackageEntry.PackageSize hp)
    have hlt : p.PackageSize < U64 := lt_of_le_of_lt hple hsz
    simp [mkJob, Nat.mod_eq_of_lt hlt]
  · exact diffStep_totalsize env packagedir fs (env.FilterPackages c ps) hsz

/-- Witness for C5 on the fixtures: the two missing entries yield exactly
their two jobs and a 500-byte running total. -/
theorem C5_job_construction_witness :
    outW.jobs = [mkJob envW cW "pkgs" pB, mkJob envW cW "pkgs" pC] ∧
      outW.totalsize = 500 := by
  have h := C5_job_construction envW cW "cache" "pkgs" outW rfl (by decide)
  constructor
  · rw [h.1]; decide
  · rw [h.2.2]; decide

/-- C8: with GPG checking disabled the keyring stays nil, yet every
successfully downloaded, openable file is still GPG-checked against that
nil keyring, and a failed check still leads to the file's removal — the
verification-and-delete path is not skipped. -/
theorem C8_nil_keyring_still_checked (env : Env) (c : Repo) (cachedir packagedir : String)
    (out : SyncOutcome) (h : Repo.Sync env c cachedir packagedir = .ok out)
    (hng : c.GPGCheck = false) :
    out.keyring = none
    ∧ (∀ j, j ∈ out.jobs → env.downloadError j = none →
        ∀ f, env.Open j.Path = .ok f →
          Event.gpgChecked j.Path none ∈ out.events
          ∧ (∀ e, env.GPGCheck f none = .error e →
              ∃ b, Event.remove j.Path b ∈ out.events)) := by
  obtain ⟨kr, rc, db, fs, ps, h1, h2, h3, h4, h5, h6, ho⟩ := Sync_ok_elim h
  subst ho
  have hkr : kr = none := by
    unfold loadKeyring at h1
    rw [hng] at h1
    simp only [Bool.false_eq_true, if_false, Except.ok.injEq] at h1
    exact h1.symm
  subst hkr
  refine ⟨rfl, ?_⟩
  intro j hj hd f hf
  refine ⟨mem_events_of_mem_jobs hj (gpgChecked_mem_processJob hd hf), ?_⟩
  intro e hg
  have hpe := processJob_annotate_gpgFail hd hf hg
  cases hrem : env.Remove j.Path with
  | none =>
    rw [hrem] at hpe
    exact ⟨true, mem_events_of_mem_jobs hj (by rw [hpe]; simp)⟩
  | some e2 =>
    rw [hrem] at hpe
    exact ⟨false, mem_events_of_mem_jobs hj (by rw [hpe]; simp)⟩

/-- Witness for C8 on the fixtures: syncing `cNoGPG` leaves the keyring
nil and still GPG-checks `b-2.0.rpm`. -/
theorem C8_nil_keyring_still_checked_witness :
    outNoGPG.keyring = none ∧ Event.gpgChecked jobB.Path none ∈ outNoGPG.events := by
  have h := C8_nil_keyring_still_checked envW cNoGPG "cache" "pkgs" outNoGPG rfl rfl
  exact ⟨h.1, (h.2 jobB (by decide) rfl "fh" rfl).1⟩

/-- C9: for a repository that passes validation with an empty base URL
and a non-empty mirror-list URL, every job's URL is the join of the empty
base URL with the package's relative location, and job construction never
reads the mirror-list URL. -/
theorem C9_mirrorlist_never_consulted (env : Env) (c : Repo) (cachedir packagedir : String)
    (out : SyncOutcome)
    (hv : (Repo.Validate c).1 = none) (hb : c.BaseURL = "") (hm : c.MirrorURL ≠ "")
    (h : Repo.Sync env c cachedir packagedir = .ok out) :
    (∀ j ∈ out.jobs, ∃ p ∈ out.missing,
        j = mkJob env c packagedir p ∧ j.URL = env.urljoin "" p.LocationHref)
    ∧ (∀ p s, mkJob env { c with MirrorURL := s } packagedir p = mkJob env c packagedir p) := by
  obtain ⟨kr, rc, db, fs, ps, h1, h2, h3, h4, h5, h6, ho⟩ := Sync_ok_elim h
  subst ho
  constructor
  · intro j hj
    rw [syncBody_jobs] at hj
    obtain ⟨p, hp, hjp⟩ := List.mem_map.mp hj
    refine ⟨p, hp, hjp.symm, ?_⟩
    rw [← hjp]
    simp [mkJob, hb]
  · intro p s
    rfl

/-- Witness for C9 on the fixtures: under `cMirror` the job for `b-2.0`
gets the empty base URL joined with its location. -/
theorem C9_mirrorlist_never_consulted_witness :
    ∃ p ∈ outMirror.missing,
      mkJob envW cMirror "pkgs" pB = mkJob envW cMirror "pkgs" p ∧
        (mkJob envW cMirror "pkgs" pB).URL = envW.urljoin "" p.LocationHref := by
  exact (C9_mirrorlist_never_consulted envW cMirror "cache" "pkgs" outMirror
    (by decide) rfl (by decide) rfl).1 (mkJob envW cMirror "pkgs" pB) (by decide)

/-- C10: when a successfully downloaded file cannot be opened for the GPG
check, the open error is logged and the job's processing does nothing
else — no GPG check and no removal for that job — while `Repo.Sync`
still returns nil (the hypothesis exhibits the successful return). -/
theorem C10_open_failure_skips_check (env : Env) (c : Repo) (cachedir packagedir : String)
    (out : SyncOutcome) (h : Repo.Sync env c cachedir packagedir = .ok out)
    (j : DownloadJob) (hj : j ∈ out.jobs) (hd : env.downloadError j = none)
    (e : String) (hf : env.Open j.Path = .error e) :
    Event.logOpenErr j.Label ∈ out.events
    ∧ processJob env out.keyring (annotate env j) = [Event.logOpenErr j.Label] := by
  obtain ⟨kr, rc, db, fs, ps, h1, h2, h3, h4, h5, h6, ho⟩ := Sync_ok_elim h
  subst ho
  rw [syncBody_keyring]
  have hpe : processJob env kr (annotate env j) = [Event.logOpenErr j.Label] :=
    processJob_annotate_openFail hd hf
  exact ⟨mem_events_of_mem_jobs hj (by rw [hpe]; simp), hpe⟩

/-- Witness for C10 on the fixtures: with `envOpenFail` the job for
`b-2.0` only logs the open error. -/
theorem C10_open_failure_skips_check_witness :
    Event.logOpenErr jobB.Label ∈ outOpenFail.events ∧
      processJob envOpenFail outOpenFail.keyring (annotate envOpenFail jobB) =
        [Event.logOpenErr jobB.Label] :=
  C10_open_failure_skips_check envOpenFail cW "cache" "pkgs" outOpenFail rfl jobB
    (by decide) rfl "permission denied" rfl

/-- `Repo.Validate` reports an error exactly for a missing ID or a
missing URL pair. -/
lemma RepoValidate_isSome_iff (c : Repo) :
    (Repo.Validate c).1.isSome ↔
      (c.ID = "" ∨ (c.MirrorURL = "" ∧ c.BaseURL = "")) := by
  unfold Repo.Validate
  by_cases h1 : c.ID = ""
  · simp [h1]
  · by_cases h2 : c.MirrorURL = "" ∧ c.BaseURL = "" <;> simp [h1, h2]

/-- Every error `Repo.Validate` reports names the originating Yumfile
path and line number. -/
lemma RepoValidate_mentions (c : Repo) (e : String)
    (he : (Repo.Validate c).1 = some e) :
    mentionsStr e c.YumfilePath ∧ mentionsStr e (toString c.YumfileLineNo) := by
  unfold Repo.Validate at he
  by_cases h1 : c.ID = ""
  · rw [if_pos h1] at he
    simp only [Option.some.injEq] at he
    subst he
    constructor
    · refine ⟨"Upstream repository has no ID specified (in ",
        ":" ++ toString c.YumfileLineNo ++ ")", ?_⟩
      simp [String.append_assoc]
    · refine ⟨"Upstream repository has no ID specified (in " ++ c.YumfilePath ++ ":",
        ")", ?_⟩
      simp [String.append_assoc]
  · rw [if_neg h1] at he
    by_cases h2 : c.MirrorURL = "" ∧ c.BaseURL = ""
    · rw [if_pos h2] at he
      simp only [Option.some.injEq] at he
      subst he
      constructor
      · refine ⟨"Upstream repository for " ++ squote ++ c.ID ++ squote ++
          " has no mirror list or base URL (in ",
          ":" ++ toString c.YumfileLineNo ++ ")", ?_⟩
        simp [String.append_assoc]
      · refine ⟨"Upstream repository for " ++ squote ++ c.ID ++ squote ++
          " has no mirror list or base URL (in " ++ c.YumfilePath ++ ":", ")", ?_⟩
        simp [String.append_assoc]
    · rw [if_neg h2] at he
      simp at he

/-- `YumRepoMirror.Validate` reports an error exactly for a missing ID or
a missing URL pair. -/
lemma MirrorValidate_isSome_iff (m : YumRepoMirror) :
    (YumRepoMirror.Validate m).1.isSome ↔
      (m.YumRepo.ID = "" ∨ (m.YumRepo.MirrorListURL = "" ∧ m.YumRepo.BaseURL = "")) := by
  unfold YumRepoMirror.Validate
  by_cases h1 : m.YumRepo.ID = ""
  · simp [h1]
  · by_cases h2 : m.YumRepo.MirrorListURL = "" ∧ m.YumRepo.BaseURL = ""
    · simp [h1, h2]
    · by_cases h3 : m.YumRepo.Name = "" <;> simp [h1, h2, h3]

/-- Every error `YumRepoMirror.Validate` reports names the originating
Yumfile path and line number. -/
lemma MirrorValidate_mentions (m : YumRepoMirror) (e : String)
    (he : (YumRepoMirror.Validate m).1 = some e) :
    mentionsStr e m.YumfilePath ∧ mentionsStr e (toString m.YumfileLineNo) := by
  unfold YumRepoMirror.Validate at he
  by_cases h1 : m.YumRepo.ID = ""
  · rw [if_pos h1] at he
    simp only [Option.some.injEq] at he
    subst he
    constructor
    · refine ⟨"Upstream repository has no ID specified (in ",
        ":" ++ toString m.YumfileLineNo ++ ")", ?_⟩
      simp [String.append_assoc]
    · refine ⟨"Upstream repository has no ID specified (in " ++ m.YumfilePath ++ ":",
        ")", ?_⟩
      simp [String.append_assoc]
  · rw [if_neg h1] at he
    by_cases h2 : m.YumRepo.MirrorListURL = "" ∧ m.YumRepo.BaseURL = ""
    · rw [if_pos h2] at he
      simp only [Option.some.injEq] at he
      subst he
      constructor
      · refine ⟨"Upstream repository for " ++ squote ++ m.YumRepo.ID ++ squote ++
          " has no mirror list or base URL (in ",
          ":" ++ toString m.YumfileLineNo ++ ")", ?_⟩
        simp [String.append_assoc]
      · refine ⟨"Upstream repository for " ++ squote ++ m.YumRepo.ID ++ squote ++
          " has no mirror list or base URL (in " ++ m.YumfilePath ++ ":", ")", ?_⟩
        simp [String.append_assoc]
    · rw [if_neg h2] at he
      by_cases h3 : m.YumRepo.Name = "" <;> simp [h3] at he

/-- C6: validation errors.  Each `Validate` (core `Repo` and
`YumRepoMirror`) returns a non-nil error exactly when the ID is empty or
both URLs are empty; every reported error names the originating Yumfile
path and line number; and a descriptor with a non-empty ID and at least
one URL validates to nil. -/
theorem C6_validate_iff (c : Repo) (m : YumRepoMirror) :
    ((Repo.Validate c).1.isSome ↔
      (c.ID = "" ∨ (c.MirrorURL = "" ∧ c.BaseURL = "")))
    ∧ (∀ e, (Repo.Validate c).1 = some e →
        mentionsStr e c.YumfilePath ∧ mentionsStr e (toString c.YumfileLineNo))
    ∧ (c.ID ≠ "" ∧ (c.BaseURL ≠ "" ∨ c.MirrorURL ≠ "") → (Repo.Validate c).1 = none)
    ∧ ((YumRepoMirror.Validate m).1.isSome ↔
      (m.YumRepo.ID = "" ∨ (m.YumRepo.MirrorListURL = "" ∧ m.YumRepo.BaseURL = "")))
    ∧ (∀ e, (YumRepoMirror.Validate m).1 = some e →
        mentionsStr e m.YumfilePath ∧ mentionsStr e (toString m.YumfileLineNo))
    ∧ (m.YumRepo.ID ≠ "" ∧ (m.YumRepo.BaseURL ≠ "" ∨ m.YumRepo.MirrorListURL ≠ "") →
        (YumRepoMirror.Validate m).1 = none) := by
  refine ⟨RepoValidate_isSome_iff c, RepoValidate_mentions c, ?_,
    MirrorValidate_isSome_iff m, MirrorValidate_mentions m, ?_⟩
  · intro h
    have hnone : ¬ (Repo.Validate c).1.isSome := by
      rw [RepoValidate_isSome_iff]
      rintro (h1 | ⟨h2, h3⟩)
      · exact h.1 h1
      · rcases h.2 with hb | hm
        · exact hb h3
        · exact hm h2
    exact Option.not_isSome_iff_eq_none.mp hnone
  · intro h
    have hnone : ¬ (YumRepoMirror.Validate m).1.isSome := by
      rw [MirrorValidate_isSome_iff]
      rintro (h1 | ⟨h2, h3⟩)
      · exact h.1 h1
      · rcases h.2 with hb | hm
        · exact hb h3
        · exact hm h2
    exact Option.not_isSome_iff_eq_none.mp hnone

/-- Witness for C6: the ID-less `cC6` fails with a message naming
`Yumfile:3`, while `mC6` (ID plus base URL) validates to nil. -/
theorem C6_validate_iff_witness :
    (∃ e, (Repo.Validate cC6).1 = some e ∧
      mentionsStr e cC6.YumfilePath ∧ mentionsStr e (toString cC6.YumfileLineNo)) ∧
    (YumRepoMirror.Validate mC6).1 = none := by
  have h := C6_validate_iff cC6 mC6
  constructor
  · exact ⟨_, rfl, h.2.1 _ rfl⟩
  · exact h.2.2.2.2.2 ⟨by decide, Or.inl (by decide)⟩

/-- C7, as stated, is false on the code for the core `Repo.Validate`: a
descriptor with an empty display name passes validation and its name is
still empty — the core variant never defaults the name to the ID (only
`YumRepoMirror.Validate` does). -/
theorem C7_name_default_cex :
    (Repo.Validate rC7).1 = none ∧ rC7.Name = "" ∧ rC7.ID = "r7" ∧
      ((Repo.Validate rC7).2).Name ≠ rC7.ID := by
  decide

/-- C7 amended: `YumRepoMirror.Validate` defaults an empty display name
to the repository's ID by the time validation returns, while the core
`Repo.Validate` returns the descriptor unchanged (name included). -/
theorem C7_name_default_amended (m : YumRepoMirror)
    (h1 : m.YumRepo.Name = "") (h2 : (YumRepoMirror.Validate m).1 = none) :
    ((YumRepoMirror.Validate m).2).YumRepo.Name = m.YumRepo.ID ∧
      (∀ r : Repo, (Repo.Validate r).2 = r) := by
  constructor
  · unfold YumRepoMirror.Validate at h2 ⊢
    by_cases hid : m.YumRepo.ID = ""
    · rw [if_pos hid] at h2; simp at h2
    · rw [if_neg hid] at h2 ⊢
      by_cases hurl : m.YumRepo.MirrorListURL = "" ∧ m.YumRepo.BaseURL = ""
      · rw [if_pos hurl] at h2; simp at h2
      · rw [if_neg hurl]
        rw [if_pos h1]
  · intro r
    unfold Repo.Validate
    by_cases ha : r.ID = ""
    · simp [ha]
    · by_cases hb : r.MirrorURL = "" ∧ r.BaseURL = "" <;> simp [ha, hb]

/-- Witness for the amended C7: `mC7` (empty name) comes back from
validation with its name set to its ID. -/
theorem C7_name_default_amended_witness :
    ((YumRepoMirror.Validate mC7).2).YumRepo.Name = "r8" := by
  have h := C7_name_default_amended mC7 rfl (by decide)
  exact h.1
